import Mathlib

/-!
Shallow embedding of the BrainPy example scripts
(develop/benchmark/COBAHH/COBAHH_brainpy.py, examples/networks/gamma_oscillation.py,
experimental/efficient_data_structure/try_dict.py), together with theorems that
settle the frozen claims about the per-timestep neuron/synapse update kernels.
Membrane potentials, gating fractions and conductances are modelled as real
numbers; per-neuron and per-synapse arrays are modelled as functions from
neuron or synapse ids to the reals.
-/

open Filter Topology

noncomputable section

/-- Modelled from the spec: the numerical integrator behind the repository
decorator bp.integrate with profile numerical_method set to exponential is
repo code that is not present under src/.  The spec describes it as using,
for a derivative that is linear in the integrated state, dx/dt = A - B*x,
the closed-form solution of the linear ODE over one step of length dt:
x(t+dt) = A/B + (x(t) - A/B) * exp(-B*dt).  Rate coefficients (the values of
A and B) are evaluated at the pre-step values of the other variables. -/
def expStep (A B dtv x : ℝ) : ℝ := A / B + (x - A / B) * Real.exp (-(B * dtv))

namespace COBAHH

def dt : ℝ := 0.1
def unit : ℝ := 1e6
def Cm : ℝ := 200 / unit
def gl : ℝ := 10 / unit
def g_Na : ℝ := 20 * 1000 / unit
def g_Kd : ℝ := 6 * 1000 / unit
def El : ℝ := -60
def EK : ℝ := -90
def ENa : ℝ := 50
def VT : ℝ := -63
def Vt : ℝ := -20
def taue : ℝ := 5
def taui : ℝ := 10
def Ee : ℝ := 0
def Ei : ℝ := -80
def we : ℝ := 6 / unit
def wi : ℝ := 67 / unit

/-- Source int_ge returns the derivative -ge/taue; with the exponential
method one step is expStep with A = 0 and B = 1/taue. -/
def int_ge (ge : ℝ) : ℝ := expStep 0 (1 / taue) dt ge

/-- Source int_gi returns the derivative -gi/taui. -/
def int_gi (gi : ℝ) : ℝ := expStep 0 (1 / taui) dt gi

def m_alpha (V : ℝ) : ℝ := 0.32 * (13 - V + VT) / (Real.exp ((13 - V + VT) / 4) - 1)

def m_beta (V : ℝ) : ℝ := 0.28 * (V - VT - 40) / (Real.exp ((V - VT - 40) / 5) - 1)

/-- Source int_m returns m_alpha*(1-m) - m_beta*m; exponential step of the
kinetic equation, A = m_alpha, B = m_alpha + m_beta. -/
def int_m (m V : ℝ) : ℝ := expStep (m_alpha V) (m_alpha V + m_beta V) dt m

def h_alpha (V : ℝ) : ℝ := 0.128 * Real.exp ((17 - V + VT) / 18)

def h_beta (V : ℝ) : ℝ := 4 / (1 + Real.exp (-(V - VT - 40) / 5))

def int_h (h V : ℝ) : ℝ := expStep (h_alpha V) (h_alpha V + h_beta V) dt h

def n_alpha (V : ℝ) : ℝ := 0.032 * (15 - V + VT) / (Real.exp ((15 - V + VT) / 5) - 1)

def n_beta (V : ℝ) : ℝ := 0.5 * Real.exp ((10 - V + VT) / 40)

def int_n (n V : ℝ) : ℝ := expStep (n_alpha V) (n_alpha V + n_beta V) dt n

/-- Coefficient of -V in the voltage derivative of int_V, divided by Cm. -/
def Vcoeff (m h n ge gi : ℝ) : ℝ :=
  (gl + ge + gi + g_Na * (m * m * m) * h + g_Kd * (n * n * n * n)) / Cm

/-- Constant part of the voltage derivative of int_V, divided by Cm. -/
def Vdrive (m h n ge gi : ℝ) : ℝ :=
  (gl * El + ge * Ee + gi * Ei + g_Na * (m * m * m) * h * ENa
    + g_Kd * (n * n * n * n) * EK) / Cm

/-- Source int_V returns (gl*(El-V) + ge*(Ee-V) + gi*(Ei-V)
- g_na_*(V-ENa) - g_kd_*(V-EK))/Cm, which is Vdrive - Vcoeff * V;
exponential step of that linear ODE. -/
def int_V (V m h n ge gi : ℝ) : ℝ :=
  expStep (Vdrive m h n ge gi) (Vcoeff m h n ge gi) dt V

/-- Per-neuron state of the COBAHH NeuState (single-neuron view of the
structure-of-arrays state; the update is elementwise). -/
structure NeuSt where
  V : ℝ
  m : ℝ
  n : ℝ
  h : ℝ
  sp : ℝ
  ge : ℝ
  gi : ℝ

/-- Source neu_update: mutates ge, gi, m, h, n in place (each kinetic update
reading the not-yet-mutated V), then computes the new V from the freshly
written gating and conductance values, detects the threshold crossing, and
finally writes V. -/
def neu_update (ST : NeuSt) : NeuSt :=
  let ge := int_ge ST.ge
  let gi := int_gi ST.gi
  let m := int_m ST.m ST.V
  let h := int_h ST.h ST.V
  let n := int_n ST.n ST.V
  let V := int_V ST.V m h n ge gi
  let sp : ℝ := if ST.V < Vt ∧ Vt ≤ V then 1 else 0
  { V := V, m := m, n := n, h := h, sp := sp, ge := ge, gi := gi }

/-- Numpy fancy-index in-place increment g[ids] += w: every array slot whose
index occurs in ids is incremented once (duplicate indices collapse). -/
def npAddAt (g : ℕ → ℝ) (ids : List ℕ) (w : ℝ) : ℕ → ℝ :=
  fun j => if j ∈ ids then g j + w else g j

/-- Source exc_update, generalized over the processing order of the source
neurons (the source iterates pre_id over range(len(pre2post))): for every
source neuron with sp > 0, add the weight we to the ge slot of every target
in its fan-out list. -/
def exc_deliver (sp : ℕ → ℝ) (pre2post : ℕ → List ℕ) (order : List ℕ)
    (ge : ℕ → ℝ) : ℕ → ℝ :=
  order.foldl (fun g i => if 0 < sp i then npAddAt g (pre2post i) we else g) ge

/-- Source exc_update with the order used by the source loop. -/
def exc_update (numPre : ℕ) (sp : ℕ → ℝ) (pre2post : ℕ → List ℕ)
    (ge : ℕ → ℝ) : ℕ → ℝ :=
  exc_deliver sp pre2post (List.range numPre) ge

/-- Source inh_update, identical to exc_update but adding wi into gi. -/
def inh_deliver (sp : ℕ → ℝ) (pre2post : ℕ → List ℕ) (order : List ℕ)
    (gi : ℕ → ℝ) : ℕ → ℝ :=
  order.foldl (fun g i => if 0 < sp i then npAddAt g (pre2post i) wi else g) gi

/-- Number of sources in the processing list that spike and whose fan-out
list contains target j. -/
def fireCount (sp : ℕ → ℝ) (pre2post : ℕ → List ℕ) (j : ℕ) : List ℕ → ℕ
  | [] => 0
  | i :: rest => (if 0 < sp i ∧ j ∈ pre2post i then 1 else 0) + fireCount sp pre2post j rest

/-- Numpy bounds-checked fancy-index increment: indexing with an id that is
out of range for the target array raises IndexError (modelled as none); the
adjacency ids produced by the connectivity builders are nonnegative machine
integers, modelled as naturals. -/
def npAddAtChecked (n : ℕ) (g : ℕ → ℝ) (ids : List ℕ) (w : ℝ) : Option (ℕ → ℝ) :=
  if ∀ j ∈ ids, j < n then some (npAddAt g ids w) else none

/-- Source exc_update with numpy index bounds checking made explicit:
delivery for a spiking source aborts (none) when its fan-out list holds an
id out of range for the numPost-element postsynaptic array; sources whose
sp is not positive are skipped without touching their fan-out lists. -/
def exc_deliver_checked (numPost : ℕ) (sp : ℕ → ℝ) (pre2post : ℕ → List ℕ) :
    List ℕ → (ℕ → ℝ) → Option (ℕ → ℝ)
  | [], ge => some ge
  | i :: rest, ge =>
    if 0 < sp i then
      match npAddAtChecked numPost ge (pre2post i) we with
      | none => none
      | some g => exc_deliver_checked numPost sp pre2post rest g
    else exc_deliver_checked numPost sp pre2post rest ge

end COBAHH

namespace Gamma

def dt : ℝ := 0.05
def spike_threshold : ℝ := 0
def C : ℝ := 1
def gLeak : ℝ := 0.1
def ELeak : ℝ := -65
def gNa : ℝ := 35
def ENa : ℝ := 55
def gK : ℝ := 9
def EK : ℝ := -90
def phi : ℝ := 5

def h_alpha (V : ℝ) : ℝ := 0.07 * Real.exp (-(V + 58) / 20)

def h_beta (V : ℝ) : ℝ := 1 / (Real.exp (-0.1 * (V + 28)) + 1)

/-- Source int_h returns phi*(alpha*(1-h) - beta*h); exponential step with
A = phi*alpha, B = phi*(alpha+beta). -/
def int_h (h V : ℝ) : ℝ := expStep (phi * h_alpha V) (phi * (h_alpha V + h_beta V)) dt h

def n_alpha (V : ℝ) : ℝ := -0.01 * (V + 34) / (Real.exp (-0.1 * (V + 34)) - 1)

def n_beta (V : ℝ) : ℝ := 0.125 * Real.exp (-(V + 44) / 80)

def int_n (n V : ℝ) : ℝ := expStep (phi * n_alpha V) (phi * (n_alpha V + n_beta V)) dt n

def m_alpha (V : ℝ) : ℝ := -0.1 * (V + 35) / (Real.exp (-0.1 * (V + 35)) - 1)

def m_beta (V : ℝ) : ℝ := 4 * Real.exp (-(V + 60) / 18)

/-- Instantaneous sodium activation used inside int_V. -/
def m_inf (V : ℝ) : ℝ := m_alpha V / (m_alpha V + m_beta V)

/-- Coefficient of -V in the voltage derivative of int_V, divided by C. -/
def Vcoeff (V h n : ℝ) : ℝ :=
  (gNa * m_inf V ^ 3 * h + gK * n ^ 4 + gLeak) / C

/-- Constant part of the voltage derivative of int_V, divided by C. -/
def Vdrive (V h n Isyn : ℝ) : ℝ :=
  (gNa * m_inf V ^ 3 * h * ENa + gK * n ^ 4 * EK + gLeak * ELeak + Isyn) / C

/-- Source int_V returns (-INa - IK - IL + Isyn)/C, which is
Vdrive - Vcoeff * V; exponential step of that linear ODE (gating values and
Isyn held at their argument values over the step). -/
def int_V (V h n Isyn : ℝ) : ℝ :=
  expStep (Vdrive V h n Isyn) (Vcoeff V h n) dt V

/-- Per-neuron state of the gamma-oscillation HH NeuState. -/
structure NeuSt where
  V : ℝ
  h : ℝ
  n : ℝ
  sp : ℝ
  inp : ℝ

/-- Source update of the gamma HH neuron.  Note the int_V call in the
source reads the dictionary entries for h and n, which at that point still
hold the previous-step values, while the freshly computed locals h and n
are only written back afterwards; the input accumulator is cleared at the
end of the step. -/
def update (ST : NeuSt) : NeuSt :=
  let h := int_h ST.h ST.V
  let n := int_n ST.n ST.V
  let V := int_V ST.V ST.h ST.n ST.inp
  let sp : ℝ := if ST.V < spike_threshold ∧ spike_threshold ≤ V then 1 else 0
  { V := V, h := h, n := n, sp := sp, inp := 0 }

def g_max : ℝ := 0.1
def E : ℝ := -75
def alpha : ℝ := 12
def beta : ℝ := 0.1

/-- Per-synapse state of the GABAa SynState. -/
structure SynSt where
  g : ℕ → ℝ
  s : ℕ → ℝ
  pre_above_th : ℕ → ℝ

/-- The sigmoidal drive 1/(1+exp(-x/2)) applied to pre_above_th. -/
def sigT (x : ℝ) : ℝ := 1 / (1 + Real.exp (-x / 2))

/-- Source int_s returns alpha*TT*(1-s) - beta*s; exponential step with
A = alpha*TT and B = alpha*TT + beta. -/
def int_s (s TT : ℝ) : ℝ := expStep (alpha * TT) (alpha * TT + beta) dt s

/-- The loop in the source synapse update: for each presynaptic id in
order, overwrite pre_above_th at all of its synapse ids with
V_pre - spike_threshold. -/
def writeAbove (pre2syn : ℕ → List ℕ) (preV : ℕ → ℝ) (order : List ℕ)
    (a : ℕ → ℝ) : ℕ → ℝ :=
  order.foldl
    (fun acc i => fun k => if k ∈ pre2syn i then preV i - spike_threshold else acc k) a

/-- Source update of the GABAa synapse: refresh pre_above_th from the
presynaptic voltages through pre2syn, form the drive T, integrate s, and
set g = g_max * s. -/
def syn_update (numPre : ℕ) (pre2syn : ℕ → List ℕ) (preV : ℕ → ℝ)
    (ST : SynSt) : SynSt :=
  let above := writeAbove pre2syn preV (List.range numPre) ST.pre_above_th
  let s := fun k => int_s (ST.s k) (sigT (above k))
  { g := fun k => g_max * s k, s := s, pre_above_th := above }

/-- Source output step: for each postsynaptic neuron, sum g over its
afferent synapses (post2syn fan-in) and subtract the conductance-weighted
driving force from its input accumulator. -/
def output (post2syn : ℕ → List ℕ) (ST : SynSt) (postV postInp : ℕ → ℝ) : ℕ → ℝ :=
  fun p => postInp p - ((post2syn p).map ST.g).sum * (postV p - E)

end Gamma

namespace TryDict

def dt : ℝ := 0.01
def E_Na : ℝ := 50
def g_Na : ℝ := 120
def E_K : ℝ := -77
def g_K : ℝ := 36
def E_Leak : ℝ := -54.387
def g_Leak : ℝ := 0.03
def C : ℝ := 1
def Vr : ℝ := -65
def Vth : ℝ := 20

def m_alpha (V : ℝ) : ℝ := 0.1 * (V + 40) / (1 - Real.exp (-(V + 40) / 10))

def m_beta (V : ℝ) : ℝ := 4 * Real.exp (-(V + 65) / 18)

/-- Source int_m: explicit forward Euler, m + dmdt*dt. -/
def int_m (m t V : ℝ) : ℝ := m + (m_alpha V * (1 - m) - m_beta V * m) * dt

def h_alpha (V : ℝ) : ℝ := 0.07 * Real.exp (-(V + 65) / 20)

def h_beta (V : ℝ) : ℝ := 1 / (1 + Real.exp (-(V + 35) / 10))

def int_h (h t V : ℝ) : ℝ := h + (h_alpha V * (1 - h) - h_beta V * h) * dt

def n_alpha (V : ℝ) : ℝ := 0.01 * (V + 55) / (1 - Real.exp (-(V + 55) / 10))

def n_beta (V : ℝ) : ℝ := 0.125 * Real.exp (-(V + 65) / 80)

def int_n (n t V : ℝ) : ℝ := n + (n_alpha V * (1 - n) - n_beta V * n) * dt

/-- The dict-of-arrays neuron state of dict_for_neuron_state. -/
structure NeuSt where
  V : ℕ → ℝ
  m : ℕ → ℝ
  h : ℕ → ℝ
  n : ℕ → ℝ
  not_ref : ℕ → ℝ
  above_th : ℕ → ℝ
  spike : ℕ → ℝ
  spike_time : ℕ → ℝ
  Isyn : ℕ → ℝ

/-- Source judge_spike: above_threshold = (V >= vth) as a 0/1 float array,
spike_st = above_threshold * (1 - previous above_th), spike_time is
overwritten with t exactly at the indices where spike_st > 0, and the
above_th and spike arrays are replaced. -/
def judge_spike (st : NeuSt) (vth t : ℝ) : NeuSt :=
  let above := fun i => if vth ≤ st.V i then (1 : ℝ) else 0
  let spike_st := fun i => above i * (1 - st.above_th i)
  { st with
    above_th := above
    spike := spike_st
    spike_time := fun i => if 0 < spike_st i then t else st.spike_time i }

/-- Source neu_update_state: gating variables advance by forward Euler from
the previous-step V; V advances by forward Euler using the freshly computed
m, h, n together with the previous-step V and the accumulated Isyn; Isyn is
then cleared and judge_spike runs on the updated state. -/
def neu_update_state (st : NeuSt) (t : ℝ) : NeuSt :=
  let m := fun i => int_m (st.m i) t (st.V i)
  let h := fun i => int_h (st.h i) t (st.V i)
  let n := fun i => int_n (st.n i) t (st.V i)
  let V := fun i =>
    st.V i + ((-(g_Na * m i ^ 3 * h i * (st.V i - E_Na))
      - g_K * n i ^ 4 * (st.V i - E_K)
      - g_Leak * (st.V i - E_Leak) + st.Isyn i) / C) * dt
  judge_spike
    { st with V := V, m := m, h := h, n := n, Isyn := fun _ => 0 } Vth t

end TryDict

/-- Concrete COBAHH neuron state used by witnesses. -/
def cobahhProbe : COBAHH.NeuSt := ⟨0, 0, 0, 0, 0, 0, 0⟩

/-- Concrete try_dict neuron state used by witnesses: neuron 0 has just
risen above threshold, neuron 1 stays below. -/
def tdProbe : TryDict.NeuSt :=
  { V := fun i => if i = 0 then 25 else -65
    m := fun _ => 0
    h := fun _ => 0
    n := fun _ => 0
    not_ref := fun _ => 1
    above_th := fun _ => 0
    spike := fun _ => 0
    spike_time := fun _ => -1e5
    Isyn := fun _ => 0 }

/-- Concrete gamma neuron state used as a counterexample probe: resting at
the leak reversal with both gating variables at zero and no input. -/
def gammaProbe : Gamma.NeuSt := ⟨-65, 0, 0, 0, 0⟩

/-- Concrete GABAa synapse state used by witnesses. -/
def synProbe : Gamma.SynSt := ⟨fun _ => 0, fun _ => 0, fun _ => 0⟩

/-- Spike array in which every neuron fires. -/
def spOne : ℕ → ℝ := fun _ => 1

/-- Spike array in which no neuron fires. -/
def spZero : ℕ → ℝ := fun _ => 0

/-- All-zero conductance array. -/
def geZero : ℕ → ℝ := fun _ => 0

/-- Fan-out adjacency sending every source to neuron 2. -/
def p2pTwo : ℕ → List ℕ := fun _ => [2]

/-- Fan-out adjacency sending every source to neuron 1. -/
def p2pOne : ℕ → List ℕ := fun _ => [1]

/-- Fan-out adjacency with a dangling target id 5. -/
def p2pFive : ℕ → List ℕ := fun _ => [5]

/-- Constant presynaptic voltage array. -/
def preVThree : ℕ → ℝ := fun _ => 3

/-- Adjacency mapping id i to the singleton synapse list containing i. -/
def synIdx : ℕ → List ℕ := fun i => [i]

/-- Fan-in adjacency sending every postsynaptic neuron to synapse 0. -/
def postSynZero : ℕ → List ℕ := fun _ => [0]

/-- Identity source map for the witness synapse wiring. -/
def idFun : ℕ → ℕ := fun k => k

end

/-! Helper lemmas about the exponential function and the integration steps. -/

theorem exp_neg_le_one {x : ℝ} (hx : 0 ≤ x) : Real.exp (-x) ≤ 1 := by
  rw [show (1 : ℝ) = Real.exp 0 from Real.exp_zero.symm]
  exact Real.exp_le_exp.mpr (by linarith)

theorem one_sub_exp_neg_nonneg {x : ℝ} (hx : 0 ≤ x) : 0 ≤ 1 - Real.exp (-x) := by
  have := exp_neg_le_one hx
  linarith

theorem one_sub_exp_neg_pos {x : ℝ} (hx : 0 < x) : 0 < 1 - Real.exp (-x) := by
  have : Real.exp (-x) < Real.exp 0 := Real.exp_lt_exp.mpr (by linarith)
  rw [Real.exp_zero] at this
  linarith

theorem one_sub_exp_neg_le (x : ℝ) : 1 - Real.exp (-x) ≤ x := by
  have := Real.add_one_le_exp (-x)
  linarith

theorem exp_neg_le_inv_one_add {x : ℝ} (hx : 0 ≤ x) :
    Real.exp (-x) ≤ 1 / (1 + x) := by
  have h1 : x + 1 ≤ Real.exp x := Real.add_one_le_exp x
  have h2 : (0 : ℝ) < 1 + x := by linarith
  have h3 : (0 : ℝ) < Real.exp x := Real.exp_pos x
  rw [Real.exp_neg]
  rw [inv_eq_one_div, div_le_div_iff₀ h3 h2]
  nlinarith

theorem div_one_add_le_one_sub_exp_neg {x : ℝ} (hx : 0 ≤ x) :
    x / (1 + x) ≤ 1 - Real.exp (-x) := by
  have h1 := exp_neg_le_inv_one_add hx
  have h2 : (0 : ℝ) < 1 + x := by linarith
  have h3 : x / (1 + x) = 1 - 1 / (1 + x) := by field_simp
  rw [h3]
  linarith

theorem exp_one_lo : (2.7 : ℝ) ≤ Real.exp 1 := le_of_lt (by
  have := Real.exp_one_gt_d9
  norm_num at this ⊢
  linarith)

theorem exp_one_hi : Real.exp 1 ≤ (2.7182818286 : ℝ) := le_of_lt Real.exp_one_lt_d9

theorem exp_three_eq : Real.exp 3 = Real.exp 1 * Real.exp 1 * Real.exp 1 := by
  rw [show (3 : ℝ) = 1 + 1 + 1 by norm_num, Real.exp_add, Real.exp_add]

theorem exp_three_lo : (19.6 : ℝ) ≤ Real.exp 3 := by
  rw [exp_three_eq]
  have := exp_one_lo
  nlinarith

theorem exp_three_hi : Real.exp 3 ≤ (20.1 : ℝ) := by
  rw [exp_three_eq]
  have h1 := exp_one_hi
  have h2 : (0 : ℝ) < Real.exp 1 := Real.exp_pos 1
  nlinarith

theorem exp_half_hi : Real.exp (1 / 2) ≤ (1.65 : ℝ) := by
  have hsq : Real.exp (1 / 2) * Real.exp (1 / 2) = Real.exp 1 := by
    rw [← Real.exp_add]; norm_num
  have h1 := exp_one_hi
  have h2 : (0 : ℝ) < Real.exp (1 / 2) := Real.exp_pos _
  nlinarith

theorem exp_twofive_lo : (3.5 : ℝ) ≤ Real.exp 2.5 := by
  have := Real.add_one_le_exp (2.5 : ℝ)
  linarith

/-- The expStep integrator written as a convex-type combination of the
current value and the steady state A/B. -/
theorem expStep_eq (A B dtv x : ℝ) :
    expStep A B dtv x
      = x * Real.exp (-(B * dtv)) + A / B * (1 - Real.exp (-(B * dtv))) := by
  unfold expStep
  ring

/-- One expStep of a kinetic equation with rates 0 ≤ A ≤ B and a
nonnegative step keeps the state inside the unit interval. -/
theorem expStep_mem_Icc {A B dtv x : ℝ} (hA : 0 ≤ A) (hAB : A ≤ B)
    (hdt : 0 ≤ dtv) (hx : x ∈ Set.Icc (0 : ℝ) 1) :
    expStep A B dtv x ∈ Set.Icc (0 : ℝ) 1 := by
  obtain ⟨hx0, hx1⟩ := hx
  rcases eq_or_lt_of_le (hA.trans hAB) with hB | hB
  · rw [expStep_eq, ← hB]
    have hA0 : A = 0 := le_antisymm (hAB.trans_eq hB.symm) hA
    rw [hA0]
    simp [Real.exp_zero]
    constructor <;> linarith
  · have hBdt : 0 ≤ B * dtv := mul_nonneg (le_of_lt hB) hdt
    have hE1 : Real.exp (-(B * dtv)) ≤ 1 := exp_neg_le_one hBdt
    have hE0 : 0 < Real.exp (-(B * dtv)) := Real.exp_pos _
    have hq0 : 0 ≤ A / B := div_nonneg hA (le_of_lt hB)
    have hq1 : A / B ≤ 1 := (div_le_one hB).mpr hAB
    rw [expStep_eq]
    constructor
    · have := mul_nonneg hx0 (le_of_lt hE0)
      have := mul_nonneg hq0 (by linarith : (0 : ℝ) ≤ 1 - Real.exp (-(B * dtv)))
      linarith
    · nlinarith

/-- One forward-Euler step of a kinetic equation with nonnegative rates
keeps the state in the unit interval provided (a+b)*dt ≤ 1. -/
theorem eulerStep_mem_Icc {a b dtv x : ℝ} (ha : 0 ≤ a) (hb : 0 ≤ b)
    (hdt : 0 ≤ dtv) (hsum : (a + b) * dtv ≤ 1) (hx : x ∈ Set.Icc (0 : ℝ) 1) :
    x + (a * (1 - x) - b * x) * dtv ∈ Set.Icc (0 : ℝ) 1 := by
  obtain ⟨hx0, hx1⟩ := hx
  have hadt : a * dtv ≤ 1 := by nlinarith
  have hbdt : b * dtv ≤ 1 := by nlinarith
  constructor
  · nlinarith
  · nlinarith

/-- Sign of the ratio appearing in the forward-Euler rate functions of the
try_dict model: y / (1 - exp(-y)) is nonnegative for every y (with the
Lean convention 0/0 = 0 at y = 0). -/
theorem ratio_nonneg (y : ℝ) : 0 ≤ y / (1 - Real.exp (-y)) := by
  rcases lt_trichotomy y 0 with h | h | h
  · apply div_nonneg_of_nonpos (le_of_lt h)
    have : Real.exp 0 < Real.exp (-y) := Real.exp_lt_exp.mpr (by linarith)
    rw [Real.exp_zero] at this
    linarith
  · simp [h]
  · exact div_nonneg (le_of_lt h) (le_of_lt (one_sub_exp_neg_pos h))

/-! Claim C8: exponential-decay conductance kernels. -/

theorem int_ge_closed (x : ℝ) :
    COBAHH.int_ge x = x * Real.exp (-(COBAHH.dt / COBAHH.taue)) := by
  unfold COBAHH.int_ge expStep
  rw [zero_div, sub_zero, zero_add,
    show -(1 / COBAHH.taue * COBAHH.dt) = -(COBAHH.dt / COBAHH.taue) by ring]

theorem int_ge_iter_closed (k : ℕ) :
    (fun x => COBAHH.int_ge x)^[k] 1 = Real.exp (-(COBAHH.dt / COBAHH.taue)) ^ k := by
  induction k with
  | zero => simp
  | succ k ih =>
    rw [Function.iterate_succ_apply', ih, int_ge_closed, pow_succ]

/-- Claim C8: with the exponential numerical method, the conductance decay
kernel int_ge (derivative -ge/taue, no input) satisfies the closed form
x_{t+1} = x_t * exp(-dt/taue) at every step; in the real-valued model the
closed form is exact, so over any number of steps starting from x = 1
(in particular the 1000 steps with taue = 5, dt = 0.1 named by the claim)
the deviation from exp(-dt/taue)^k is 0 ≤ 1e-9. -/
theorem C8_exponential_decay (k : ℕ) :
    (fun x => COBAHH.int_ge x)^[k + 1] 1
        = (fun x => COBAHH.int_ge x)^[k] 1 * Real.exp (-(COBAHH.dt / COBAHH.taue))
    ∧ |(fun x => COBAHH.int_ge x)^[k] 1
          - Real.exp (-(COBAHH.dt / COBAHH.taue)) ^ k| ≤ 1e-9 := by
  constructor
  · rw [Function.iterate_succ_apply', int_ge_closed]
  · rw [int_ge_iter_closed, sub_self, abs_zero]
    norm_num

/-! Claim C9: the per-neuron input accumulator is cleared by the update. -/

/-- Claim C9: after every neuron-update step, the input accumulator
(inp in the gamma model, Isyn in the try_dict model) is zero for every
neuron, while the V written by that same step is computed from the
accumulator value that was present before the clear — so input delivered
during step t influences the membrane potential only at the next step, and
external input must be re-injected every step to persist. -/
theorem C9_input_accumulator_cleared (st : Gamma.NeuSt) (st2 : TryDict.NeuSt)
    (t : ℝ) (i : ℕ) :
    (Gamma.update st).inp = 0
    ∧ (Gamma.update st).V = Gamma.int_V st.V st.h st.n st.inp
    ∧ (TryDict.neu_update_state st2 t).Isyn i = 0
    ∧ (TryDict.neu_update_state st2 t).V i
        = st2.V i + ((-(TryDict.g_Na * TryDict.int_m (st2.m i) t (st2.V i) ^ 3
              * TryDict.int_h (st2.h i) t (st2.V i) * (st2.V i - TryDict.E_Na))
            - TryDict.g_K * TryDict.int_n (st2.n i) t (st2.V i) ^ 4
              * (st2.V i - TryDict.E_K)
            - TryDict.g_Leak * (st2.V i - TryDict.E_Leak)
            + st2.Isyn i) / TryDict.C) * TryDict.dt :=
  ⟨rfl, rfl, rfl, rfl⟩

/-! Claim C10: frame conditions of judge_spike. -/

/-- Claim C10: judge_spike rewrites only the above_th, spike and
spike_time fields (V, m, h, n, not_ref and Isyn are untouched); it writes
the current time into spike_time exactly at the indices whose spike
indicator is positive this step, and every other index keeps its previous
spike_time — so spike_time always holds the time of the most recent spike,
or the initial sentinel -1e5 for a neuron that has never spiked. -/
theorem C10_judge_spike_frame (st : TryDict.NeuSt) (vth t : ℝ) :
    ((TryDict.judge_spike st vth t).V = st.V
      ∧ (TryDict.judge_spike st vth t).m = st.m
      ∧ (TryDict.judge_spike st vth t).h = st.h
      ∧ (TryDict.judge_spike st vth t).n = st.n
      ∧ (TryDict.judge_spike st vth t).not_ref = st.not_ref
      ∧ (TryDict.judge_spike st vth t).Isyn = st.Isyn)
    ∧ (∀ i, 0 < (TryDict.judge_spike st vth t).spike i →
        (TryDict.judge_spike st vth t).spike_time i = t)
    ∧ (∀ i, ¬ 0 < (TryDict.judge_spike st vth t).spike i →
        (TryDict.judge_spike st vth t).spike_time i = st.spike_time i) := by
  refine ⟨⟨rfl, rfl, rfl, rfl, rfl, rfl⟩, fun i hi => ?_, fun i hi => ?_⟩
  · simp only [TryDict.judge_spike] at hi ⊢
    rw [if_pos hi]
  · simp only [TryDict.judge_spike] at hi ⊢
    rw [if_neg hi]

theorem C10_witness :
    (TryDict.judge_spike tdProbe 20 7).V = tdProbe.V
    ∧ (TryDict.judge_spike tdProbe 20 7).spike_time 0 = 7
    ∧ (TryDict.judge_spike tdProbe 20 7).spike_time 1 = tdProbe.spike_time 1 :=
  ⟨(C10_judge_spike_frame tdProbe 20 7).1.1,
   (C10_judge_spike_frame tdProbe 20 7).2.1 0 (by
      norm_num [TryDict.judge_spike, tdProbe]),
   (C10_judge_spike_frame tdProbe 20 7).2.2 1 (by
      norm_num [TryDict.judge_spike, tdProbe])⟩

/-! Claim C3: the spike predicate and the equivalence of its two variants. -/

/-- Claim C3: the direct crossing test of COBAHH neu_update marks a spike
exactly when the previous-step V is below threshold and the new V is at or
above it (boundary inclusive), and the judge_spike flag variant of
try_dict computes the same predicate: whenever the persistent above_th
flag holds the 0/1 indicator of the previous-step V, the spike indicator
it produces is positive exactly on the rising edge Vprev < vth ≤ Vcurr. -/
theorem C3_spike_predicate (st : TryDict.NeuSt) (vth t Vp : ℝ) (i : ℕ)
    (ST : COBAHH.NeuSt)
    (hflag : st.above_th i = if vth ≤ Vp then (1 : ℝ) else 0) :
    (0 < (TryDict.judge_spike st vth t).spike i ↔ (Vp < vth ∧ vth ≤ st.V i))
    ∧ ((COBAHH.neu_update ST).sp = 1
        ↔ (ST.V < COBAHH.Vt ∧ COBAHH.Vt ≤ (COBAHH.neu_update ST).V)) := by
  constructor
  · simp only [TryDict.judge_spike]
    rw [hflag]
    split_ifs with h1 h2 h2
    · constructor
      · intro hc; norm_num at hc
      · intro hc; exact absurd hc.1 (not_lt.mpr h2)
    · constructor
      · intro _; exact ⟨lt_of_not_le h2, h1⟩
      · intro _; norm_num
    · constructor
      · intro hc; norm_num at hc
      · intro hc; exact absurd hc.2 h1
    · constructor
      · intro hc; norm_num at hc
      · intro hc; exact absurd hc.2 h1
  · simp only [COBAHH.neu_update]
    split_ifs with hc
    · simp [hc]
    · simp [hc]

theorem C3_witness :
    (0 < (TryDict.judge_spike tdProbe 20 3).spike 0
        ↔ ((-65 : ℝ) < 20 ∧ (20 : ℝ) ≤ tdProbe.V 0))
    ∧ ((COBAHH.neu_update cobahhProbe).sp = 1
        ↔ (cobahhProbe.V < COBAHH.Vt
            ∧ COBAHH.Vt ≤ (COBAHH.neu_update cobahhProbe).V)) :=
  C3_spike_predicate tdProbe 20 3 (-65) 0 cobahhProbe (by norm_num [tdProbe])

/-! Claim C5: the direct-conductance delivery is an order-independent
scatter-add. -/

theorem exc_deliver_closed_form (L : List ℕ) (sp : ℕ → ℝ)
    (pre2post : ℕ → List ℕ) (ge : ℕ → ℝ) (j : ℕ) :
    COBAHH.exc_deliver sp pre2post L ge j
      = ge j + COBAHH.we * COBAHH.fireCount sp pre2post j L := by
  induction L generalizing ge with
  | nil => simp [COBAHH.exc_deliver, COBAHH.fireCount]
  | cons i rest ih =>
    show COBAHH.exc_deliver sp pre2post rest
        (if 0 < sp i then COBAHH.npAddAt ge (pre2post i) COBAHH.we else ge) j = _
    rw [ih]
    by_cases hsp : 0 < sp i
    · by_cases hj : j ∈ pre2post i
      · simp only [COBAHH.npAddAt, COBAHH.fireCount, if_pos hsp, if_pos hj,
          if_pos (And.intro hsp hj)]
        push_cast
        ring
      · simp only [COBAHH.npAddAt, COBAHH.fireCount, if_pos hsp, if_neg hj,
          if_neg (fun hc : 0 < sp i ∧ j ∈ pre2post i => hj hc.2)]
        push_cast
        ring
    · simp only [COBAHH.fireCount, if_neg hsp,
        if_neg (fun hc : 0 < sp i ∧ j ∈ pre2post i => hsp hc.1)]
      push_cast
      ring

theorem fireCount_perm {L1 L2 : List ℕ} (hperm : L1.Perm L2) (sp : ℕ → ℝ)
    (pre2post : ℕ → List ℕ) (j : ℕ) :
    COBAHH.fireCount sp pre2post j L1 = COBAHH.fireCount sp pre2post j L2 := by
  induction hperm with
  | nil => rfl
  | cons x l ih => simp only [COBAHH.fireCount, ih]
  | swap x y l => simp only [COBAHH.fireCount]; omega
  | trans h1 h2 ih1 ih2 => rw [ih1, ih2]

/-- Claim C5: within one timestep, the direct-conductance delivery of
exc_update adds the fixed weight we to the conductance of target j once
for every distinct spiking source whose fan-out list contains j
(increments accumulate, no overwrite), and processing the sources in any
order (any permutation of the processing list) yields the same final
conductance on every target. -/
theorem C5_scatter_add_order_independent (sp : ℕ → ℝ) (pre2post : ℕ → List ℕ)
    (ge : ℕ → ℝ) (j : ℕ) (L1 L2 : List ℕ) (hperm : L1.Perm L2) :
    COBAHH.exc_deliver sp pre2post L1 ge j
        = ge j + COBAHH.we * COBAHH.fireCount sp pre2post j L1
    ∧ COBAHH.exc_deliver sp pre2post L2 ge j
        = COBAHH.exc_deliver sp pre2post L1 ge j := by
  refine ⟨exc_deliver_closed_form L1 sp pre2post ge j, ?_⟩
  rw [exc_deliver_closed_form L1 sp pre2post ge j,
    exc_deliver_closed_form L2 sp pre2post ge j,
    fireCount_perm hperm sp pre2post j]

theorem C5_witness :
    COBAHH.exc_deliver spOne p2pTwo [0, 1] geZero 2
        = geZero 2 + COBAHH.we * COBAHH.fireCount spOne p2pTwo 2 [0, 1]
    ∧ COBAHH.exc_deliver spOne p2pTwo [1, 0] geZero 2
        = COBAHH.exc_deliver spOne p2pTwo [0, 1] geZero 2 :=
  C5_scatter_add_order_independent spOne p2pTwo geZero 2 [0, 1] [1, 0]
    (List.Perm.swap 1 0 [])

/-! Claim C7: failure semantics of delivery through a malformed adjacency. -/

theorem exc_deliver_checked_ok (L : List ℕ) (numPost : ℕ) (sp : ℕ → ℝ)
    (pre2post : ℕ → List ℕ) (ge : ℕ → ℝ)
    (hin : ∀ a ∈ L, ∀ j ∈ pre2post a, j < numPost) :
    COBAHH.exc_deliver_checked numPost sp pre2post L ge
      = some (COBAHH.exc_deliver sp pre2post L ge) := by
  induction L generalizing ge with
  | nil => rfl
  | cons i rest ih =>
    have hi : ∀ j ∈ pre2post i, j < numPost := hin i (List.mem_cons_self i rest)
    have hrest : ∀ a ∈ rest, ∀ j ∈ pre2post a, j < numPost :=
      fun a ha => hin a (List.mem_cons_of_mem i ha)
    show (if 0 < sp i then _ else _) = _
    by_cases hsp : 0 < sp i
    · rw [if_pos hsp]
      simp only [COBAHH.npAddAtChecked, if_pos hi]
      rw [ih _ hrest]
      show _ = some (COBAHH.exc_deliver sp pre2post rest
        (if 0 < sp i then COBAHH.npAddAt ge (pre2post i) COBAHH.we else ge))
      rw [if_pos hsp]
    · rw [if_neg hsp, ih _ hrest]
      show _ = some (COBAHH.exc_deliver sp pre2post rest
        (if 0 < sp i then COBAHH.npAddAt ge (pre2post i) COBAHH.we else ge))
      rw [if_neg hsp]

/-- Claim C7 (amended): an out-of-range target id in a fan-out list is
detected only at delivery time, not at setup.  When every id reachable
from the processed sources is in range, the checked delivery completes and
equals the plain scatter-add (every id targets the intended neuron); when
a spiking source carries an out-of-range id in its fan-out list, the
delivery step aborts with an IndexError (none) rather than silently
dropping or misdirecting — but a dangling id whose source does not spike
is never touched and raises no error at all. -/
theorem C7_delivery_failure_semantics (numPost : ℕ) (sp : ℕ → ℝ)
    (pre2post : ℕ → List ℕ) (ge : ℕ → ℝ) (L : List ℕ) (i : ℕ) (rest : List ℕ) :
    ((∀ a ∈ L, ∀ j ∈ pre2post a, j < numPost) →
      COBAHH.exc_deliver_checked numPost sp pre2post L ge
        = some (COBAHH.exc_deliver sp pre2post L ge))
    ∧ (0 < sp i → ¬ (∀ j ∈ pre2post i, j < numPost) →
      COBAHH.exc_deliver_checked numPost sp pre2post (i :: rest) ge = none) := by
  constructor
  · exact exc_deliver_checked_ok L numPost sp pre2post ge
  · intro hsp hbad
    show (if 0 < sp i then _ else _) = _
    rw [if_pos hsp]
    simp only [COBAHH.npAddAtChecked, if_neg hbad]

theorem C7_witness :
    COBAHH.exc_deliver_checked 2 spOne p2pOne [0] geZero
        = some (COBAHH.exc_deliver spOne p2pOne [0] geZero)
    ∧ COBAHH.exc_deliver_checked 2 spOne p2pFive [0, 1] geZero = none :=
  ⟨(C7_delivery_failure_semantics 2 spOne p2pOne geZero [0] 0 []).1 (by decide),
   (C7_delivery_failure_semantics 2 spOne p2pFive geZero [] 0 [1]).2
      (by norm_num [spOne]) (by decide)⟩

/-- Claim C7 counterexample: the claim as stated says a fan-out entry with
an out-of-range target id is detected at setup and aborts before the
simulation starts.  In the code there is no setup-time validation at all:
with only 2 postsynaptic neurons and a fan-out list referencing the
dangling id 5, a whole delivery step in which the offending source does
not spike completes without any error and leaves the conductances
untouched. -/
theorem C7_counterexample :
    COBAHH.exc_deliver_checked 2 spZero p2pFive [0] geZero = some geZero := by
  show (if 0 < spZero 0 then _ else _) = _
  rw [if_neg (by norm_num [spZero])]
  rfl

/-! Claim C4: boundedness of the gating kernels. -/

theorem tryDict_m_alpha_eq (V : ℝ) :
    TryDict.m_alpha V = ((V + 40) / 10) / (1 - Real.exp (-((V + 40) / 10))) := by
  unfold TryDict.m_alpha
  rw [show -(V + 40) / 10 = -((V + 40) / 10) by ring]
  ring

theorem tryDict_m_alpha_nonneg (V : ℝ) : 0 ≤ TryDict.m_alpha V := by
  rw [tryDict_m_alpha_eq]
  exact ratio_nonneg _

theorem tryDict_n_alpha_eq (V : ℝ) :
    TryDict.n_alpha V = 0.1 * (((V + 55) / 10) / (1 - Real.exp (-((V + 55) / 10)))) := by
  unfold TryDict.n_alpha
  rw [show -(V + 55) / 10 = -((V + 55) / 10) by ring]
  ring

theorem tryDict_n_alpha_nonneg (V : ℝ) : 0 ≤ TryDict.n_alpha V := by
  rw [tryDict_n_alpha_eq]
  have := ratio_nonneg ((V + 55) / 10)
  nlinarith

theorem tryDict_m_beta_nonneg (V : ℝ) : 0 ≤ TryDict.m_beta V := by
  unfold TryDict.m_beta
  positivity

theorem tryDict_n_beta_nonneg (V : ℝ) : 0 ≤ TryDict.n_beta V := by
  unfold TryDict.n_beta
  positivity

theorem gamma_h_alpha_nonneg (V : ℝ) : 0 ≤ Gamma.h_alpha V := by
  unfold Gamma.h_alpha
  positivity

theorem gamma_h_beta_nonneg (V : ℝ) : 0 ≤ Gamma.h_beta V := by
  unfold Gamma.h_beta
  positivity

/-- Claim C4 (amended): with the exponential method (gamma model kernels,
here int_h) the gating state stays in [0,1] for every membrane potential V
and any number of steps; the forward-Euler kernels of the try_dict model
(int_m, int_n) keep the state in [0,1] for any number of steps provided
the rate condition (alpha(V)+beta(V))*dt ≤ 1 holds at the chosen V — the
claim as stated, for arbitrary V, fails for the forward-Euler kernels. -/
theorem C4_gating_bounded (V x t : ℝ) (k : ℕ)
    (hx : x ∈ Set.Icc (0 : ℝ) 1)
    (hm : (TryDict.m_alpha V + TryDict.m_beta V) * TryDict.dt ≤ 1)
    (hn : (TryDict.n_alpha V + TryDict.n_beta V) * TryDict.dt ≤ 1) :
    (fun y => TryDict.int_m y t V)^[k] x ∈ Set.Icc (0 : ℝ) 1
    ∧ (fun y => TryDict.int_n y t V)^[k] x ∈ Set.Icc (0 : ℝ) 1
    ∧ (fun y => Gamma.int_h y V)^[k] x ∈ Set.Icc (0 : ℝ) 1 := by
  induction k with
  | zero => exact ⟨hx, hx, hx⟩
  | succ k ih =>
    obtain ⟨ih1, ih2, ih3⟩ := ih
    have hdt : (0 : ℝ) ≤ TryDict.dt := by norm_num [TryDict.dt]
    refine ⟨?_, ?_, ?_⟩
    · rw [Function.iterate_succ_apply']
      exact eulerStep_mem_Icc (tryDict_m_alpha_nonneg V) (tryDict_m_beta_nonneg V)
        hdt hm ih1
    · rw [Function.iterate_succ_apply']
      exact eulerStep_mem_Icc (tryDict_n_alpha_nonneg V) (tryDict_n_beta_nonneg V)
        hdt hn ih2
    · rw [Function.iterate_succ_apply']
      have ha := gamma_h_alpha_nonneg V
      have hb := gamma_h_beta_nonneg V
      exact expStep_mem_Icc (by nlinarith [show (0:ℝ) ≤ Gamma.phi by norm_num [Gamma.phi]])
        (by nlinarith [show (0:ℝ) ≤ Gamma.phi by norm_num [Gamma.phi]])
        (by norm_num [Gamma.dt]) ih3

/-- Claim C4 counterexample: the claim as stated quantifies over any fixed
membrane potential V.  For the forward-Euler kernel int_m of the try_dict
model at V = -200 (where beta is about 7233 per ms, so beta*dt is far
above 1), a single step from m = 1 leaves the unit interval: the result
1 - 0.04*exp(7.5) is below -0.6. -/
theorem C4_counterexample : TryDict.int_m 1 0 (-200) ∉ Set.Icc (0 : ℝ) 1 := by
  intro hmem
  obtain ⟨h0, _⟩ := hmem
  have hbeta : TryDict.m_beta (-200) = 4 * Real.exp 7.5 := by
    norm_num [TryDict.m_beta]
  have hval : TryDict.int_m 1 0 (-200) = 1 - 4 * Real.exp 7.5 * 0.01 := by
    unfold TryDict.int_m
    rw [hbeta]
    norm_num [TryDict.dt]
    ring
  have hcube : Real.exp 7.5 = Real.exp 2.5 ^ 3 := by
    rw [show (7.5 : ℝ) = (3 : ℕ) * 2.5 by norm_num, Real.exp_nat_mul]
  have hpow : (3.5 : ℝ) ^ 3 ≤ Real.exp 2.5 ^ 3 :=
    pow_le_pow_left₀ (by norm_num) exp_twofive_lo 3
  have hexp : (42 : ℝ) ≤ Real.exp 7.5 := by
    rw [hcube]
    nlinarith
  rw [hval] at h0
  nlinarith

theorem C4_witness :
    (fun y => TryDict.int_m y 0 (-65))^[2] (1 / 2) ∈ Set.Icc (0 : ℝ) 1
    ∧ (fun y => TryDict.int_n y 0 (-65))^[2] (1 / 2) ∈ Set.Icc (0 : ℝ) 1
    ∧ (fun y => Gamma.int_h y (-65))^[2] (1 / 2) ∈ Set.Icc (0 : ℝ) 1 :=
  C4_gating_bounded (-65) (1 / 2) 0 2
    (by constructor <;> norm_num)
    (by
      have hma : TryDict.m_alpha (-65) = -2.5 / (1 - Real.exp 2.5) := by
        norm_num [TryDict.m_alpha]
      have hmb : TryDict.m_beta (-65) = 4 := by
        norm_num [TryDict.m_beta, Real.exp_zero]
      have h1 : TryDict.m_alpha (-65) ≤ 1 := by
        rw [hma, div_le_iff_of_neg (by nlinarith [exp_twofive_lo])]
        nlinarith [exp_twofive_lo]
      have h2 := tryDict_m_alpha_nonneg (-65)
      rw [hmb]
      norm_num [TryDict.dt]
      linarith)
    (by
      have hna : TryDict.n_alpha (-65) = -0.1 / (1 - Real.exp 1) := by
        norm_num [TryDict.n_alpha]
      have hnb : TryDict.n_beta (-65) = 0.125 := by
        norm_num [TryDict.n_beta, Real.exp_zero]
      have h1 : TryDict.n_alpha (-65) ≤ 1 := by
        rw [hna, div_le_iff_of_neg (by nlinarith [exp_one_lo])]
        nlinarith [exp_one_lo]
      have h2 := tryDict_n_alpha_nonneg (-65)
      rw [hnb]
      norm_num [TryDict.dt]
      linarith)

/-! Claim C6: the kinetic (GABAa) synapse pipeline. -/

theorem writeAbove_cons (pre2syn : ℕ → List ℕ) (preV : ℕ → ℝ) (i : ℕ)
    (rest : List ℕ) (a : ℕ → ℝ) :
    Gamma.writeAbove pre2syn preV (i :: rest) a
      = Gamma.writeAbove pre2syn preV rest
          (fun k => if k ∈ pre2syn i then preV i - Gamma.spike_threshold else a k) :=
  rfl

theorem writeAbove_not_mem (pre2syn : ℕ → List ℕ) (preV : ℕ → ℝ) (L : List ℕ)
    (a : ℕ → ℝ) (k : ℕ) (h : ∀ i ∈ L, k ∉ pre2syn i) :
    Gamma.writeAbove pre2syn preV L a k = a k := by
  induction L generalizing a with
  | nil => rfl
  | cons i rest ih =>
    rw [writeAbove_cons,
      ih _ (fun i' hi' => h i' (List.mem_cons_of_mem i hi'))]
    exact if_neg (h i (List.mem_cons_self i rest))

theorem writeAbove_src (pre2syn : ℕ → List ℕ) (preV : ℕ → ℝ) (L : List ℕ)
    (a : ℕ → ℝ) (k s : ℕ) (hmem : s ∈ L) (hk : k ∈ pre2syn s)
    (huniq : ∀ i ∈ L, k ∈ pre2syn i → i = s) :
    Gamma.writeAbove pre2syn preV L a k = preV s - Gamma.spike_threshold := by
  induction L generalizing a with
  | nil => cases hmem
  | cons i rest ih =>
    rw [writeAbove_cons]
    by_cases hsr : s ∈ rest
    · exact ih _ hsr (fun i' hi' => huniq i' (List.mem_cons_of_mem i hi'))
    · have hsi : s = i := by
        rcases List.mem_cons.mp hmem with h | h
        · exact h
        · exact absurd h hsr
      have hnone : ∀ i' ∈ rest, k ∉ pre2syn i' := by
        intro i' hi' hk'
        have : i' = s := huniq i' (List.mem_cons_of_mem i hi') hk'
        exact hsr (this ▸ hi')
      rw [writeAbove_not_mem _ _ _ _ _ hnone, ← hsi, if_pos hk]

/-- Claim C6: in the kinetic synapse model, after the update step each
synapse k fed (through the pre2syn adjacency, here assumed to list k under
exactly one source, src k) carries pre_above_th = V_pre - theta taken from
its own source neuron, its gating state advances by the integration step
of ds/dt = alpha*T*(1-s) - beta*s with the sigmoidal drive
T = 1/(1+exp(-(V_pre-theta)/2)), its conductance is set to g = g_max*s,
and the output step subtracts, for each postsynaptic neuron p, the sum of
g over its afferent synapses (post2syn fan-in) times (V_post - E) from the
input accumulator of p. -/
theorem C6_kinetic_synapse (numPre : ℕ) (pre2syn : ℕ → List ℕ) (preV : ℕ → ℝ)
    (ST : Gamma.SynSt) (src : ℕ → ℕ) (k : ℕ)
    (post2syn : ℕ → List ℕ) (postV postInp : ℕ → ℝ) (p : ℕ)
    (hsrc : src k < numPre) (hk : k ∈ pre2syn (src k))
    (huniq : ∀ i, i < numPre → k ∈ pre2syn i → i = src k) :
    (Gamma.syn_update numPre pre2syn preV ST).pre_above_th k
        = preV (src k) - Gamma.spike_threshold
    ∧ (Gamma.syn_update numPre pre2syn preV ST).s k
        = Gamma.int_s (ST.s k) (Gamma.sigT (preV (src k) - Gamma.spike_threshold))
    ∧ Gamma.sigT (preV (src k) - Gamma.spike_threshold)
        = 1 / (1 + Real.exp (-(preV (src k) - Gamma.spike_threshold) / 2))
    ∧ (Gamma.syn_update numPre pre2syn preV ST).g k
        = Gamma.g_max * (Gamma.syn_update numPre pre2syn preV ST).s k
    ∧ Gamma.output post2syn (Gamma.syn_update numPre pre2syn preV ST) postV postInp p
        = postInp p
          - ((post2syn p).map (Gamma.syn_update numPre pre2syn preV ST).g).sum
            * (postV p - Gamma.E) := by
  have hw : Gamma.writeAbove pre2syn preV (List.range numPre) ST.pre_above_th k
      = preV (src k) - Gamma.spike_threshold :=
    writeAbove_src pre2syn preV (List.range numPre) ST.pre_above_th k (src k)
      (List.mem_range.mpr hsrc) hk
      (fun i hi hki => huniq i (List.mem_range.mp hi) hki)
  refine ⟨hw, ?_, rfl, rfl, rfl⟩
  show Gamma.int_s (ST.s k)
      (Gamma.sigT (Gamma.writeAbove pre2syn preV (List.range numPre) ST.pre_above_th k)) = _
  rw [hw]

theorem C6_witness :
    (Gamma.syn_update 1 synIdx preVThree synProbe).pre_above_th 0
        = preVThree (idFun 0) - Gamma.spike_threshold
    ∧ (Gamma.syn_update 1 synIdx preVThree synProbe).s 0
        = Gamma.int_s (synProbe.s 0)
            (Gamma.sigT (preVThree (idFun 0) - Gamma.spike_threshold))
    ∧ Gamma.sigT (preVThree (idFun 0) - Gamma.spike_threshold)
        = 1 / (1 + Real.exp (-(preVThree (idFun 0) - Gamma.spike_threshold) / 2))
    ∧ (Gamma.syn_update 1 synIdx preVThree synProbe).g 0
        = Gamma.g_max * (Gamma.syn_update 1 synIdx preVThree synProbe).s 0
    ∧ Gamma.output postSynZero (Gamma.syn_update 1 synIdx preVThree synProbe)
          preVThree geZero 0
        = geZero 0
          - ((postSynZero 0).map (Gamma.syn_update 1 synIdx preVThree synProbe).g).sum
            * (preVThree 0 - Gamma.E) :=
  C6_kinetic_synapse 1 synIdx preVThree synProbe idFun 0 postSynZero preVThree
    geZero 0 (by decide) (by decide)
    (by intro i hi _; simp only [idFun]; omega)

/-! Claim C2: rate-function singularities. -/

theorem tendsto_div_exp_sub_one :
    Tendsto (fun x : ℝ => x / (Real.exp x - 1)) (𝓝[≠] (0 : ℝ)) (𝓝 1) := by
  have h : HasDerivAt Real.exp 1 0 := by
    simpa using Real.hasDerivAt_exp 0
  have h2 : Tendsto (fun x : ℝ => (Real.exp x - 1) / x) (𝓝[≠] (0 : ℝ)) (𝓝 1) := by
    have h3 := hasDerivAt_iff_tendsto_slope.mp h
    refine h3.congr fun x => ?_
    rw [slope_def_field, Real.exp_zero, sub_zero]
  have h4 := h2.inv₀ one_ne_zero
  rw [inv_one] at h4
  refine h4.congr fun x => ?_
  rw [inv_div]

theorem tendsto_arg_m_alpha :
    Tendsto (fun V : ℝ => (13 - V + COBAHH.VT) / 4) (𝓝[≠] (-50 : ℝ)) (𝓝[≠] (0 : ℝ)) := by
  rw [tendsto_nhdsWithin_iff]
  constructor
  · have hc : Continuous fun V : ℝ => (13 - V + COBAHH.VT) / 4 := by fun_prop
    have h0 := hc.tendsto (-50)
    rw [show ((13 - -(50 : ℝ) + COBAHH.VT) / 4) = 0 by norm_num [COBAHH.VT]] at h0
    exact h0.mono_left nhdsWithin_le_nhds
  · refine eventually_mem_nhdsWithin.mono fun V hV => ?_
    simp only [Set.mem_compl_iff, Set.mem_singleton_iff] at hV ⊢
    intro hzero
    refine hV ?_
    norm_num [COBAHH.VT] at hzero
    linarith

theorem cobahh_m_alpha_tendsto :
    Tendsto COBAHH.m_alpha (𝓝[≠] (-50 : ℝ)) (𝓝 1.28) := by
  have hbase := tendsto_div_exp_sub_one.comp tendsto_arg_m_alpha
  have hscaled := hbase.const_mul (1.28 : ℝ)
  rw [mul_one] at hscaled
  refine hscaled.congr fun V => ?_
  simp only [Function.comp_apply]
  unfold COBAHH.m_alpha
  ring

/-- Claim C2: as written, the claim fails on the code.  At the exact
singular voltages the rate functions evaluate their x/(exp(x)-1) (or
x/(1-exp(-x))) term at x = 0, i.e. 0/0: in floating point this is NaN (in
this real-valued embedding, where division by zero yields 0, the value is
0), not the finite removable-singularity limit.  For COBAHH int_m at
V = VT+13 = -50 the denominator is exactly exp 0 - 1 = 0, the function
evaluates to 0, while its limit as V approaches -50 is 1.28, which is not
0; the analogous denominators vanish at V = VT+40 = -23 (COBAHH m_beta),
V = VT+15 = -48 (COBAHH n_alpha), V = -34 (gamma n), V = -35 (gamma m),
V = -40 (try_dict m) and V = -55 (try_dict n), where each function also
evaluates to 0 instead of its finite limit. -/
theorem C2_singularity_values :
    Real.exp ((13 - -(50 : ℝ) + COBAHH.VT) / 4) - 1 = 0
    ∧ COBAHH.m_alpha (-50) = 0
    ∧ Tendsto COBAHH.m_alpha (𝓝[≠] (-50 : ℝ)) (𝓝 1.28)
    ∧ (1.28 : ℝ) ≠ 0
    ∧ COBAHH.m_beta (-23) = 0
    ∧ COBAHH.n_alpha (-48) = 0
    ∧ Gamma.n_alpha (-34) = 0
    ∧ Gamma.m_alpha (-35) = 0
    ∧ TryDict.m_alpha (-40) = 0
    ∧ TryDict.n_alpha (-55) = 0 := by
  refine ⟨?_, ?_, cobahh_m_alpha_tendsto, by norm_num, ?_, ?_, ?_, ?_, ?_, ?_⟩
  · norm_num [COBAHH.VT, Real.exp_zero]
  · norm_num [COBAHH.m_alpha, COBAHH.VT]
  · norm_num [COBAHH.m_beta, COBAHH.VT]
  · norm_num [COBAHH.n_alpha, COBAHH.VT]
  · norm_num [Gamma.n_alpha]
  · norm_num [Gamma.m_alpha]
  · norm_num [TryDict.m_alpha]
  · norm_num [TryDict.n_alpha]

/-! Claim C1: ordering of gating and voltage updates within one step. -/

theorem exp_nonneg_one_le {x : ℝ} (hx : 0 ≤ x) : 1 ≤ Real.exp x := by
  rw [show (1 : ℝ) = Real.exp 0 from Real.exp_zero.symm]
  exact Real.exp_le_exp.mpr hx

theorem exp_37_lo : (19.6 : ℝ) ≤ Real.exp 3.7 :=
  le_trans exp_three_lo (Real.exp_le_exp.mpr (by norm_num))

theorem exp_31_lo : (19.6 : ℝ) ≤ Real.exp 3.1 :=
  le_trans exp_three_lo (Real.exp_le_exp.mpr (by norm_num))

theorem exp_2180_hi : Real.exp (21 / 80) ≤ 1.65 :=
  le_trans (Real.exp_le_exp.mpr (by norm_num)) exp_half_hi

theorem exp_518_hi : Real.exp (5 / 18) ≤ 1.65 :=
  le_trans (Real.exp_le_exp.mpr (by norm_num)) exp_half_hi

theorem gh_alpha_65 : Gamma.h_alpha (-65) = 0.07 * Real.exp (7 / 20) := by
  norm_num [Gamma.h_alpha]

theorem gh_beta_65 : Gamma.h_beta (-65) = 1 / (Real.exp 3.7 + 1) := by
  norm_num [Gamma.h_beta]

theorem gn_alpha_65 : Gamma.n_alpha (-65) = 0.31 / (Real.exp 3.1 - 1) := by
  norm_num [Gamma.n_alpha]

theorem gn_beta_65 : Gamma.n_beta (-65) = 0.125 * Real.exp (21 / 80) := by
  norm_num [Gamma.n_beta]

theorem gm_alpha_65 : Gamma.m_alpha (-65) = 3 / (Real.exp 3 - 1) := by
  norm_num [Gamma.m_alpha]

theorem gm_beta_65 : Gamma.m_beta (-65) = 4 * Real.exp (5 / 18) := by
  norm_num [Gamma.m_beta]

theorem gamma_m0_lo : (1 : ℝ) / 44 ≤ Gamma.m_inf (-65) := by
  have he3hi := exp_three_hi
  have he3lo := exp_three_lo
  have h518 := exp_518_hi
  have hma_lo : (0.157 : ℝ) ≤ Gamma.m_alpha (-65) := by
    rw [gm_alpha_65, le_div_iff₀ (by linarith)]
    linarith
  have hmb_hi : Gamma.m_beta (-65) ≤ 6.6 := by
    rw [gm_beta_65]
    linarith
  have hmb_lo : 0 ≤ Gamma.m_beta (-65) := by
    rw [gm_beta_65]
    positivity
  unfold Gamma.m_inf
  rw [le_div_iff₀ (by linarith)]
  linarith

theorem gamma_h1_lo : (0.0099 : ℝ) ≤ Gamma.int_h 0 (-65) := by
  have ha_lo : (0.07 : ℝ) ≤ Gamma.h_alpha (-65) := by
    rw [gh_alpha_65]
    nlinarith [exp_nonneg_one_le (show (0 : ℝ) ≤ 7 / 20 by norm_num)]
  have hb_lo : 0 ≤ Gamma.h_beta (-65) := gamma_h_beta_nonneg (-65)
  have hb_hi : Gamma.h_beta (-65) ≤ 1 / 20.6 := by
    rw [gh_beta_65]
    have h37 := exp_37_lo
    rw [div_le_div_iff₀ (by linarith) (by norm_num)]
    linarith
  have hsum_pos : 0 < Gamma.h_alpha (-65) + Gamma.h_beta (-65) := by linarith
  have hphi : (0 : ℝ) < Gamma.phi := by norm_num [Gamma.phi]
  unfold Gamma.int_h
  rw [expStep_eq, zero_mul, zero_add,
    mul_div_mul_left _ _ (ne_of_gt hphi)]
  have hq_lo : (0.58 : ℝ)
      ≤ Gamma.h_alpha (-65) / (Gamma.h_alpha (-65) + Gamma.h_beta (-65)) := by
    rw [le_div_iff₀ hsum_pos]
    linarith
  have hx_lo : (0.0175 : ℝ)
      ≤ Gamma.phi * (Gamma.h_alpha (-65) + Gamma.h_beta (-65)) * Gamma.dt := by
    simp only [Gamma.phi, Gamma.dt]
    nlinarith
  have hfac : (0.0171 : ℝ) ≤ 1 - Real.exp
      (-(Gamma.phi * (Gamma.h_alpha (-65) + Gamma.h_beta (-65)) * Gamma.dt)) := by
    set x := Gamma.phi * (Gamma.h_alpha (-65) + Gamma.h_beta (-65)) * Gamma.dt
    have hx0 : (0 : ℝ) ≤ x := le_trans (by norm_num) hx_lo
    have h1 := div_one_add_le_one_sub_exp_neg hx0
    have h2 : (1 : ℝ) / (1 + x) ≤ 1 / 1.0175 :=
      one_div_le_one_div_of_le (by norm_num) (by linarith)
    have h3 : x / (1 + x) + 1 / (1 + x) = 1 := by
      rw [div_add_div_same, add_comm x 1, div_self (show (1 : ℝ) + x ≠ 0 by linarith)]
    linarith
  calc (0.0099 : ℝ) ≤ 0.58 * 0.0171 := by norm_num
    _ ≤ _ := mul_le_mul hq_lo hfac (by norm_num) (le_trans (by norm_num) hq_lo)

theorem gamma_n1_lo : (0 : ℝ) ≤ Gamma.int_n 0 (-65) := by
  have h31 := exp_31_lo
  have hna_lo : 0 ≤ Gamma.n_alpha (-65) := by
    rw [gn_alpha_65]
    apply div_nonneg (by norm_num)
    linarith
  have hnb_lo : (0.125 : ℝ) ≤ Gamma.n_beta (-65) := by
    rw [gn_beta_65]
    nlinarith [exp_nonneg_one_le (show (0 : ℝ) ≤ 21 / 80 by norm_num)]
  have hphi : (0 : ℝ) ≤ Gamma.phi := by norm_num [Gamma.phi]
  have hdt : (0 : ℝ) ≤ Gamma.dt := by norm_num [Gamma.dt]
  unfold Gamma.int_n
  rw [expStep_eq, zero_mul, zero_add]
  apply mul_nonneg
  · exact div_nonneg (mul_nonneg hphi hna_lo)
      (mul_nonneg hphi (by linarith))
  · exact one_sub_exp_neg_nonneg
      (mul_nonneg (mul_nonneg hphi (by linarith)) hdt)

theorem gamma_n1_hi : Gamma.int_n 0 (-65) ≤ 0.008 := by
  have h31 := exp_31_lo
  have hna_lo : 0 ≤ Gamma.n_alpha (-65) := by
    rw [gn_alpha_65]
    apply div_nonneg (by norm_num)
    linarith
  have hna_hi : Gamma.n_alpha (-65) ≤ 0.0167 := by
    rw [gn_alpha_65, div_le_iff₀ (by linarith)]
    linarith
  have hnb_lo : (0.125 : ℝ) ≤ Gamma.n_beta (-65) := by
    rw [gn_beta_65]
    nlinarith [exp_nonneg_one_le (show (0 : ℝ) ≤ 21 / 80 by norm_num)]
  have hnb_hi : Gamma.n_beta (-65) ≤ 0.207 := by
    rw [gn_beta_65]
    nlinarith [exp_2180_hi]
  have hsum_pos : 0 < Gamma.n_alpha (-65) + Gamma.n_beta (-65) := by linarith
  have hphi : (0 : ℝ) < Gamma.phi := by norm_num [Gamma.phi]
  unfold Gamma.int_n
  rw [expStep_eq, zero_mul, zero_add,
    mul_div_mul_left _ _ (ne_of_gt hphi)]
  have hq_hi : Gamma.n_alpha (-65) / (Gamma.n_alpha (-65) + Gamma.n_beta (-65))
      ≤ 0.134 := by
    rw [div_le_iff₀ hsum_pos]
    linarith
  have hx_lo : (0 : ℝ) ≤ Gamma.phi * (Gamma.n_alpha (-65) + Gamma.n_beta (-65)) * Gamma.dt :=
    mul_nonneg (mul_nonneg (le_of_lt hphi) (le_of_lt hsum_pos))
      (by norm_num [Gamma.dt])
  have hx_hi : Gamma.phi * (Gamma.n_alpha (-65) + Gamma.n_beta (-65)) * Gamma.dt
      ≤ 0.056 := by
    simp only [Gamma.phi, Gamma.dt]
    nlinarith
  have hfac_hi : 1 - Real.exp
      (-(Gamma.phi * (Gamma.n_alpha (-65) + Gamma.n_beta (-65)) * Gamma.dt)) ≤ 0.056 :=
    le_trans (one_sub_exp_neg_le _) hx_hi
  have hfac_lo : 0 ≤ 1 - Real.exp
      (-(Gamma.phi * (Gamma.n_alpha (-65) + Gamma.n_beta (-65)) * Gamma.dt)) :=
    one_sub_exp_neg_nonneg hx_lo
  calc Gamma.n_alpha (-65) / (Gamma.n_alpha (-65) + Gamma.n_beta (-65))
        * (1 - Real.exp (-(Gamma.phi * (Gamma.n_alpha (-65) + Gamma.n_beta (-65)) * Gamma.dt)))
      ≤ 0.134 * 0.056 := mul_le_mul hq_hi hfac_hi hfac_lo (by norm_num)
    _ ≤ 0.008 := by norm_num

theorem gamma_probe_V_lt (h1 n1 : ℝ) (hh : (0.0099 : ℝ) ≤ h1) (hn0 : 0 ≤ n1)
    (hn : n1 ≤ 0.008) : (-65 : ℝ) < Gamma.int_V (-65) h1 n1 0 := by
  have hm := gamma_m0_lo
  have hm0 : (0 : ℝ) ≤ Gamma.m_inf (-65) := le_trans (by norm_num) hm
  have hm3 : ((1 : ℝ) / 44) ^ 3 ≤ Gamma.m_inf (-65) ^ 3 :=
    pow_le_pow_left₀ (by norm_num) hm 3
  have hn4 : n1 ^ 4 ≤ (0.008 : ℝ) ^ 4 := pow_le_pow_left₀ hn0 hn 4
  have hm3_0 : 0 ≤ Gamma.m_inf (-65) ^ 3 := pow_nonneg hm0 3
  have hn4_0 : 0 ≤ n1 ^ 4 := by positivity
  have hh0 : (0 : ℝ) ≤ h1 := le_trans (by norm_num) hh
  have hmh : ((1 : ℝ) / 44) ^ 3 * 0.0099 ≤ Gamma.m_inf (-65) ^ 3 * h1 :=
    mul_le_mul hm3 hh (by norm_num) hm3_0
  have hmh2 : (1e-7 : ℝ) ≤ Gamma.m_inf (-65) ^ 3 * h1 :=
    le_trans (by norm_num) hmh
  have hn42 : n1 ^ 4 ≤ (4.1e-9 : ℝ) := le_trans hn4 (by norm_num)
  have hB_eq : Gamma.Vcoeff (-65) h1 n1
      = 35 * Gamma.m_inf (-65) ^ 3 * h1 + 9 * n1 ^ 4 + 0.1 := by
    unfold Gamma.Vcoeff Gamma.gNa Gamma.gK Gamma.gLeak Gamma.C
    ring
  have hA_eq : Gamma.Vdrive (-65) h1 n1 0
      = 1925 * Gamma.m_inf (-65) ^ 3 * h1 - 810 * n1 ^ 4 - 6.5 := by
    unfold Gamma.Vdrive Gamma.gNa Gamma.gK Gamma.gLeak Gamma.ELeak Gamma.ENa Gamma.EK Gamma.C
    ring
  have hBpos : 0 < Gamma.Vcoeff (-65) h1 n1 := by
    rw [hB_eq]
    nlinarith [mul_nonneg hm3_0 hh0]
  have hq_gt : -65 < Gamma.Vdrive (-65) h1 n1 0 / Gamma.Vcoeff (-65) h1 n1 := by
    rw [lt_div_iff₀ hBpos, hB_eq, hA_eq]
    nlinarith [hmh2, hn42]
  have hdtpos : (0 : ℝ) < Gamma.dt := by norm_num [Gamma.dt]
  have hE_lt : Real.exp (-(Gamma.Vcoeff (-65) h1 n1 * Gamma.dt)) < 1 := by
    have hpos : 0 < Gamma.Vcoeff (-65) h1 n1 * Gamma.dt := mul_pos hBpos hdtpos
    have h := Real.exp_lt_exp.mpr
      (show -(Gamma.Vcoeff (-65) h1 n1 * Gamma.dt) < 0 by linarith)
    rwa [Real.exp_zero] at h
  have hE_pos : 0 < Real.exp (-(Gamma.Vcoeff (-65) h1 n1 * Gamma.dt)) := Real.exp_pos _
  unfold Gamma.int_V
  rw [expStep_eq]
  have hfac : 0 < 1 - Real.exp (-(Gamma.Vcoeff (-65) h1 n1 * Gamma.dt)) := by linarith
  have hqq : 0 < Gamma.Vdrive (-65) h1 n1 0 / Gamma.Vcoeff (-65) h1 n1 + 65 := by linarith
  nlinarith [mul_pos hqq hfac]

theorem gamma_int_V_probe_zero : Gamma.int_V (-65) 0 0 0 = -65 := by
  unfold Gamma.int_V expStep Gamma.Vcoeff Gamma.Vdrive Gamma.gNa Gamma.gK
    Gamma.gLeak Gamma.ELeak Gamma.ENa Gamma.EK Gamma.C
  norm_num

/-- Claim C1 (amended): the staggered (semi-implicit) ordering — gating
variables advanced from the previous-step V, V then advanced from the
newly computed gating variables — holds for the COBAHH neu_update (whose V
step also consumes the freshly decayed ge and gi) and for the try_dict
neu_update_state; in the gamma-oscillation update, however, the gating
variables are advanced from the previous-step V but the voltage kernel is
called with the previous-step h and n (the freshly computed locals are
written back only afterwards), so there V advances from the old gating
values, contrary to the claim. -/
theorem C1_update_ordering (ST : COBAHH.NeuSt) (st2 : TryDict.NeuSt)
    (t : ℝ) (i : ℕ) (st3 : Gamma.NeuSt) :
    ((COBAHH.neu_update ST).ge = COBAHH.int_ge ST.ge
      ∧ (COBAHH.neu_update ST).gi = COBAHH.int_gi ST.gi
      ∧ (COBAHH.neu_update ST).m = COBAHH.int_m ST.m ST.V
      ∧ (COBAHH.neu_update ST).h = COBAHH.int_h ST.h ST.V
      ∧ (COBAHH.neu_update ST).n = COBAHH.int_n ST.n ST.V
      ∧ (COBAHH.neu_update ST).V
          = COBAHH.int_V ST.V ((COBAHH.neu_update ST).m) ((COBAHH.neu_update ST).h)
              ((COBAHH.neu_update ST).n) ((COBAHH.neu_update ST).ge)
              ((COBAHH.neu_update ST).gi))
    ∧ ((TryDict.neu_update_state st2 t).m i = TryDict.int_m (st2.m i) t (st2.V i)
      ∧ (TryDict.neu_update_state st2 t).h i = TryDict.int_h (st2.h i) t (st2.V i)
      ∧ (TryDict.neu_update_state st2 t).n i = TryDict.int_n (st2.n i) t (st2.V i)
      ∧ (TryDict.neu_update_state st2 t).V i
          = st2.V i + ((-(TryDict.g_Na * ((TryDict.neu_update_state st2 t).m i) ^ 3
                * ((TryDict.neu_update_state st2 t).h i) * (st2.V i - TryDict.E_Na))
              - TryDict.g_K * ((TryDict.neu_update_state st2 t).n i) ^ 4
                * (st2.V i - TryDict.E_K)
              - TryDict.g_Leak * (st2.V i - TryDict.E_Leak)
              + st2.Isyn i) / TryDict.C) * TryDict.dt)
    ∧ ((Gamma.update st3).h = Gamma.int_h st3.h st3.V
      ∧ (Gamma.update st3).n = Gamma.int_n st3.n st3.V
      ∧ (Gamma.update st3).V = Gamma.int_V st3.V st3.h st3.n st3.inp) :=
  ⟨⟨rfl, rfl, rfl, rfl, rfl, rfl⟩, ⟨rfl, rfl, rfl, rfl⟩, ⟨rfl, rfl, rfl⟩⟩

/-- Claim C1 counterexample: in the gamma-oscillation model the claim
fails.  At the concrete state V = -65, h = n = 0, inp = 0, the update
leaves V at exactly -65 (it integrates with the old gating values 0), but
the voltage kernel applied to the newly computed gating values — as the
claim prescribes — gives a strictly larger V, so the two disagree. -/
theorem C1_counterexample :
    (Gamma.update gammaProbe).V
      ≠ Gamma.int_V gammaProbe.V ((Gamma.update gammaProbe).h)
          ((Gamma.update gammaProbe).n) gammaProbe.inp := by
  have hL : (Gamma.update gammaProbe).V = Gamma.int_V (-65) 0 0 0 := rfl
  have hR : Gamma.int_V gammaProbe.V ((Gamma.update gammaProbe).h)
      ((Gamma.update gammaProbe).n) gammaProbe.inp
      = Gamma.int_V (-65) (Gamma.int_h 0 (-65)) (Gamma.int_n 0 (-65)) 0 := rfl
  rw [hL, hR, gamma_int_V_probe_zero]
  exact ne_of_lt (gamma_probe_V_lt (Gamma.int_h 0 (-65)) (Gamma.int_n 0 (-65))
    gamma_h1_lo gamma_n1_lo gamma_n1_hi)
